import Mathlib

/-!
Verification of the resumable ARN-cleanup engine.

Shallow embedding of the repository's core logic:
* `SNSService.checkArnStatus` (retry loop, credential-refresh interleaving,
  status classification) from `src/pinpoint.js`,
* `SNSService.checkMultipleArns` / `chunkArray` (batching),
* `ArnCleanupService.generateSummary` and the resume decision of
  `ArnCleanupService.cleanup` from `src/cleanup.js`,
* `DatabaseService.getPushArns`, `DatabaseService.batchSaveArnResults`,
  `DatabaseService.canResumeRun` from `src/database.js`,
* `ARNCleanupService.deleteARNBatch` from `src/arn-cleanup.js`.

Remote calls are modelled by an oracle `behav : Nat → CallResult` giving the
outcome of each attempt (indexed by the current value of the `retries`
counter, which the source increments exactly once per failing iteration).
Forced credential refreshes (`refreshCredentials` called from the catch
block) are modelled by `refreshOk : Nat → Bool`; the proactive
`ensureValidCredentials` call at the top of the loop only refreshes — it is
modelled as non-throwing and is not counted by the `refreshes` field, which
counts the forced refresh calls that the claims are about.

JavaScript strings are Lean `String`s (`substring(0, 20)` becomes
`String.take 20`); nullable / possibly-`undefined` values are `Option`s;
JavaScript truthiness of numbers (`if (resumeFromId)`, `if (limit)`) is made
explicit (`none` and `some 0` are falsy).
-/

/-- `s.includes(pat)` on explicit character lists: does `p` start `s`? -/
def listStartsWith : List Char → List Char → Bool
  | [], _ => true
  | _ :: _, [] => false
  | p :: ps, c :: cs => p == c && listStartsWith ps cs

/-- Does the pattern occur as a contiguous sublist? -/
def listHasSub (pat : List Char) : List Char → Bool
  | [] => listStartsWith pat []
  | c :: cs => listStartsWith pat (c :: cs) || listHasSub pat cs

/-- JavaScript `s.includes(pat)`. -/
def strHasSub (s pat : String) : Bool := listHasSub pat.toList s.toList

/-- Endpoint attributes as consumed by `checkArnStatus`: every field may be
absent (`undefined`) and `Enabled` is the raw string AWS returns. -/
structure Attrs where
  Enabled : Option String
  Token : Option String
  UserId : Option String
  CustomUserData : Option String
  deriving Repr, DecidableEq

/-- Outcome of one remote `GetEndpointAttributes` call: a response whose
`Attributes` may be absent, or a thrown error carrying `name` and `message`. -/
inductive CallResult where
  | ok (attrs : Option Attrs)
  | err (name message : String)
  deriving Repr, DecidableEq

/-- One per-record result object as built by `checkArnStatus` /
`deleteARNBatch`'s status-check sibling.  The `metadata` object's keys are
flattened into `Option` fields (absent key = `none`). -/
structure ArnResult where
  originalId : Int
  arn : String
  status : String
  statusReason : String
  errorMessage : Option String
  retryCount : Nat
  errorType : Option String
  metaEnabled : Option String
  metaToken : Option String
  metaUserId : Option String
  metaCustomUserData : Option String
  deriving Repr, DecidableEq

/-- `src/pinpoint.js` lines 316-323: the token-expiration test applied to a
caught error. -/
def isTokenExpiredErr (name message : String) : Bool :=
  strHasSub message "security token included in the request is expired" ||
  strHasSub message "The provided token has expired" ||
  strHasSub message "TokenRefreshRequired" ||
  name == "TokenRefreshRequired" ||
  name == "ExpiredToken"

/-- `src/pinpoint.js` line 336: the not-found test applied to a caught error. -/
def isNotFoundErr (name message : String) : Bool :=
  name == "NotFoundException" || name == "NotFound" ||
  strHasSub message "does not exist"

/-- `src/pinpoint.js` line 351: the invalid-parameter test applied to a
caught error. -/
def isInvalidErr (name message : String) : Bool :=
  name == "InvalidParameter" || strHasSub message "Invalid parameter"

/-- A caught error that matches none of the three special tests: it falls
through to the linear-backoff retry. -/
def isTransientCall : CallResult → Bool
  | .ok _ => false
  | .err n m => !isTokenExpiredErr n m && !isNotFoundErr n m && !isInvalidErr n m

/-- Number of occurrences of a character in a list; `arn.split(':')` on a
single-character separator yields exactly `countCharOcc ':' + 1` parts. -/
def countCharOcc (c : Char) : List Char → Nat
  | [] => 0
  | x :: xs => (if x == c then 1 else 0) + countCharOcc c xs

/-- `SNSService.validateEndpointArn` (`src/pinpoint.js` lines 201-220).
Returns `none` when the ARN passes, otherwise the message of the error the
method throws (the inner message wrapped by the outer catch).  The
`arn.split(':').length < 6` test is expressed through the separator count. -/
def validateEndpointArn (arn : String) : Option String :=
  if arn = "" then
    some "Failed to validate endpoint ARN: Invalid ARN format"
  else if !strHasSub arn ":endpoint/" then
    some "Failed to validate endpoint ARN: ARN is not an SNS endpoint ARN"
  else if countCharOcc ':' arn.toList + 1 < 6 then
    some "Failed to validate endpoint ARN: Invalid SNS endpoint ARN format"
  else
    none

/-- JavaScript truthiness of `attributes.Token`. -/
def tokenTruthy : Option String → Bool
  | none => false
  | some t => t ≠ ""

/-- The result built when the response carries no `Attributes`
(`src/pinpoint.js` lines 243-254). -/
def mkNoAttributesResult (originalId : Int) (arn : String) (retries : Nat) :
    ArnResult :=
  { originalId, arn, status := "NOT_FOUND",
    statusReason := "Endpoint attributes not found", errorMessage := none,
    retryCount := retries, errorType := none, metaEnabled := none,
    metaToken := none, metaUserId := none, metaCustomUserData := none }

/-- The result built from a successful response with attributes
(`src/pinpoint.js` lines 256-293), including the status classification and
the truncated token stored in the metadata. -/
def mkSuccessResult (originalId : Int) (arn : String) (a : Attrs)
    (retries : Nat) : ArnResult :=
  let enabled := a.Enabled == some "true"
  let status := if !enabled then "DISABLED"
    else if !tokenTruthy a.Token then "DISABLED" else "ENABLED"
  let statusReason := if !enabled then "Endpoint is disabled in SNS"
    else if !tokenTruthy a.Token then "No device token found"
    else "Endpoint is enabled with valid token"
  { originalId, arn, status, statusReason, errorMessage := none,
    retryCount := retries, errorType := none, metaEnabled := a.Enabled,
    metaToken := match a.Token with
      | some t => if t ≠ "" then some (t.take 20 ++ "...") else none
      | none => none,
    metaUserId := a.UserId, metaCustomUserData := a.CustomUserData }

/-- The max-retries-exceeded result (`src/pinpoint.js` lines 298-313);
`rc` is the value of `retries - 1` at the return. -/
def mkErrorResult (originalId : Int) (arn name msg : String) (rc : Nat) :
    ArnResult :=
  { originalId, arn, status := "ERROR",
    statusReason := "Max retries exceeded", errorMessage := some msg,
    retryCount := rc, errorType := some name, metaEnabled := none,
    metaToken := none, metaUserId := none, metaCustomUserData := none }

/-- The not-found-error result (`src/pinpoint.js` lines 336-348). -/
def mkNotFoundErrResult (originalId : Int) (arn name msg : String)
    (rc : Nat) : ArnResult :=
  { originalId, arn, status := "NOT_FOUND",
    statusReason := "Endpoint not found in SNS", errorMessage := some msg,
    retryCount := rc, errorType := some name, metaEnabled := none,
    metaToken := none, metaUserId := none, metaCustomUserData := none }

/-- The invalid-parameter result (`src/pinpoint.js` lines 350-363). -/
def mkInvalidResult (originalId : Int) (arn name msg : String) (rc : Nat) :
    ArnResult :=
  { originalId, arn, status := "INVALID",
    statusReason := "Invalid endpoint ARN format", errorMessage := some msg,
    retryCount := rc, errorType := some name, metaEnabled := none,
    metaToken := none, metaUserId := none, metaCustomUserData := none }

/-- Result of a whole `checkArnStatus` invocation together with the number of
forced credential refreshes performed and the number of attempts (executions
of the `try` body) made. -/
structure CheckOutcome where
  result : ArnResult
  refreshes : Nat
  attempts : Nat
  deriving Repr, DecidableEq

/-- The `while (retries <= maxRetries)` loop of `SNSService.checkArnStatus`
(`src/pinpoint.js` lines 226-370).  `fuel` is `maxRetries + 1 - retries`:
every non-returning iteration increments `retries` exactly once (including
the token-expiration path, whose `retries++` at the top of the catch block
is never undone), so the loop makes at most `maxRetries + 1` iterations and
the `fuel = 0` branch is unreachable from `checkArnStatus`. -/
def checkArnStatusGo (maxRetries : Nat) (arn : String) (originalId : Int)
    (behav : Nat → CallResult) (refreshOk : Nat → Bool) :
    Nat → Nat → Nat → Nat → CheckOutcome
  | 0, _, refreshes, attempts =>
    ⟨mkErrorResult originalId arn "Error" "unreachable" 0, refreshes, attempts⟩
  | fuel + 1, retries, refreshes, attempts =>
    match (match validateEndpointArn arn with
           | some msg => CallResult.err "Error" msg
           | none => behav retries) with
    | .ok none =>
      ⟨mkNoAttributesResult originalId arn retries, refreshes, attempts + 1⟩
    | .ok (some a) =>
      ⟨mkSuccessResult originalId arn a retries, refreshes, attempts + 1⟩
    | .err name msg =>
      if retries + 1 > maxRetries then
        ⟨mkErrorResult originalId arn name msg retries, refreshes, attempts + 1⟩
      else if isTokenExpiredErr name msg && refreshOk refreshes then
        checkArnStatusGo maxRetries arn originalId behav refreshOk
          fuel (retries + 1) (refreshes + 1) (attempts + 1)
      else
        let refreshes' := if isTokenExpiredErr name msg then refreshes + 1
          else refreshes
        if isNotFoundErr name msg then
          ⟨mkNotFoundErrResult originalId arn name msg retries, refreshes',
            attempts + 1⟩
        else if isInvalidErr name msg then
          ⟨mkInvalidResult originalId arn name msg retries, refreshes',
            attempts + 1⟩
        else
          checkArnStatusGo maxRetries arn originalId behav refreshOk
            fuel (retries + 1) refreshes' (attempts + 1)

/-- `SNSService.checkArnStatus` entered with `retries = 0`. -/
def checkArnStatus (maxRetries : Nat) (arn : String) (originalId : Int)
    (behav : Nat → CallResult) (refreshOk : Nat → Bool) : CheckOutcome :=
  checkArnStatusGo maxRetries arn originalId behav refreshOk
    (maxRetries + 1) 0 0 0

/-- `config.app.maxRetries` default (`src/config.js` line 39). -/
def configMaxRetriesDefault : Nat := 3

/-- Per-run summary object of `ArnCleanupService.generateSummary`
(`src/cleanup.js` lines 216-242). -/
structure Summary where
  enabled : Nat
  disabled : Nat
  error : Nat
  not_found : Nat
  deriving Repr, DecidableEq

/-- One step of the `results.forEach` switch in `generateSummary`: note the
switch has no case for `INVALID`. -/
def summaryStep (acc : Summary) (r : ArnResult) : Summary :=
  if r.status == "ENABLED" then { acc with enabled := acc.enabled + 1 }
  else if r.status == "DISABLED" then { acc with disabled := acc.disabled + 1 }
  else if r.status == "ERROR" then { acc with error := acc.error + 1 }
  else if r.status == "NOT_FOUND" then
    { acc with not_found := acc.not_found + 1 }
  else acc

/-- `ArnCleanupService.generateSummary`. -/
def generateSummary (results : List ArnResult) : Summary :=
  results.foldl summaryStep ⟨0, 0, 0, 0⟩

/-- Total of the four per-kind counts a summary reports. -/
def sumCounts (s : Summary) : Nat := s.enabled + s.disabled + s.error + s.not_found

/-- `SNSService.chunkArray` (`src/pinpoint.js` lines 425-431): slice loop
with step `chunkSize`; the fuel (initially the list length) only bounds the
iteration and is never exhausted when `chunkSize ≥ 1`. -/
def chunkAux (n : Nat) : Nat → List α → List (List α)
  | _, [] => []
  | 0, _ :: _ => []
  | fuel + 1, x :: xs => (x :: xs).take n :: chunkAux n fuel ((x :: xs).drop n)

/-- `SNSService.chunkArray`. -/
def chunkArray (l : List α) (chunkSize : Nat) : List (List α) :=
  chunkAux chunkSize l.length l

/-- One row of the results table as written by `batchSaveArnResults`:
a result enriched with `runId` and `batchId` by the save callback in
`ArnCleanupService.cleanup` (`src/cleanup.js` lines 171-185). -/
structure SavedRow where
  result : ArnResult
  runId : String
  batchId : Nat
  deriving Repr, DecidableEq

/-- The enrichment performed by the save callback for one batch. -/
def enrich (runId : String) (batchId : Nat) (rs : List ArnResult) :
    List SavedRow :=
  rs.map fun r => ⟨r, runId, batchId⟩

/-- The insert loop inside the transaction of
`DatabaseService.batchSaveArnResults` (`src/database.js` lines 136-154):
inserts sequentially, failing as soon as one insert fails.  `insertFails`
models which row inserts the database rejects. -/
def insertLoop (insertFails : SavedRow → Bool) :
    List SavedRow → List SavedRow → Option (List SavedRow)
  | acc, [] => some acc
  | acc, r :: rs =>
    if insertFails r then none else insertLoop insertFails (acc ++ [r]) rs

/-- `DatabaseService.batchSaveArnResults` (`src/database.js` lines 121-170):
empty input returns before the transaction begins; otherwise all rows are
inserted inside one transaction which commits, or rolls back (leaving the
stored table unchanged) and rethrows when any insert fails.  Returns the
table after the call and whether an error was thrown. -/
def batchSaveArnResults (insertFails : SavedRow → Bool)
    (table : List SavedRow) (results : List SavedRow) :
    List SavedRow × Bool :=
  if results.isEmpty then (table, false)
  else
    match insertLoop insertFails table results with
    | some t => (t, false)
    | none => (table, true)

/-- The per-batch drive of `SNSService.checkMultipleArns`
(`src/pinpoint.js` lines 382-417) composed with the save callback of
`ArnCleanupService.cleanup`: for each batch, every record is checked
(`Promise.all` completes the whole batch), the callback enriches the batch's
results with the run id and the incremented batch counter and persists them
through `batchSaveArnResults`; a save error aborts the run (the callback and
the surrounding catch rethrow).  `check` stands for
`this.checkArnStatus(arn, id)`.  Returns the stored table, whether an error
was thrown, and the results collected so far. -/
def runBatches (check : Int × String → ArnResult) (runId : String)
    (insertFails : SavedRow → Bool) :
    List (List (Int × String)) → Nat → List SavedRow →
    List SavedRow × Bool × List ArnResult
  | [], _, table => (table, false, [])
  | b :: bs, counter, table =>
    let batchResults := b.map check
    match batchSaveArnResults insertFails table
        (enrich runId (counter + 1) batchResults) with
    | (t, true) => (t, true, batchResults)
    | (t, false) =>
      let rest := runBatches check runId insertFails bs (counter + 1) t
      (rest.1, rest.2.1, batchResults ++ rest.2.2)

/-- `SNSService.checkMultipleArns` with the `cleanup` save callback,
starting from batch counter 0 (the service's `batchCounter` before the first
batch). -/
def checkMultipleArns (check : Int × String → ArnResult) (runId : String)
    (insertFails : SavedRow → Bool) (records : List (Int × String))
    (batchSize : Nat) (table : List SavedRow) :
    List SavedRow × Bool × List ArnResult :=
  runBatches check runId insertFails (chunkArray records batchSize) 0 table

/-- The enriched rows of each batch, in order, as the save callback would
produce them (batch ids counting up from `counter + 1`). -/
def enrichedBatches (check : Int × String → ArnResult) (runId : String) :
    List (List (Int × String)) → Nat → List (List SavedRow)
  | [], _ => []
  | b :: bs, counter =>
    enrich runId (counter + 1) (b.map check) ::
      enrichedBatches check runId bs (counter + 1)

/-- One row of the source table (`{id, arn}` with a nullable ARN column). -/
structure SourceRow where
  id : Int
  arn : Option String
  deriving Repr, DecidableEq

/-- JavaScript truthiness of the numeric `resumeFromId` / `limit` values:
`null` and `0` are falsy. -/
def jsTruthyInt : Option Int → Bool
  | none => false
  | some n => n != 0

/-- The row filter of the query built by `DatabaseService.getPushArns`
(`src/database.js` lines 66-72): `arn IS NOT NULL AND arn != ''`, plus
`id > resumeFromId` only when `resumeFromId` is truthy. -/
def pushArnRowOk (resumeFromId : Option Int) (r : SourceRow) : Bool :=
  (match r.arn with | some s => s ≠ "" | none => false) &&
  (if jsTruthyInt resumeFromId then r.id > resumeFromId.getD 0 else true)

/-- `DatabaseService.getPushArns` over a modelled source table: filter,
`ORDER BY id`, and `FETCH NEXT limit ROWS` only when `limit` is truthy
(`if (limit)` — so `limit = 0` fetches everything); rows are mapped to
`{id, arn}` pairs.  The id column is the ordinal (`IS NOT NULL` holds of
every modelled row). -/
def getPushArns (rows : List SourceRow) (limit : Option Int)
    (resumeFromId : Option Int) : List (Int × String) :=
  let filtered := rows.filter (pushArnRowOk resumeFromId)
  let sorted := filtered.mergeSort fun a b => a.id ≤ b.id
  let limited := if jsTruthyInt limit then sorted.take (limit.getD 0).toNat
    else sorted
  limited.map fun r => (r.id, r.arn.getD "")

/-- One row of the results table as relevant to resume decisions. -/
structure OutcomeRow where
  runId : String
  originalId : Int
  deriving Repr, DecidableEq

/-- `MAX(original_id)` — `NULL` (`none`) over an empty set. -/
def maxOriginalId : List OutcomeRow → Option Int
  | [] => none
  | r :: rs =>
    match maxOriginalId rs with
    | none => some r.originalId
    | some m => some (max r.originalId m)

/-- Return shape of `DatabaseService.canResumeRun`. -/
structure ResumeInfo where
  canResume : Bool
  lastProcessedId : Option Int
  processedRecords : Nat
  totalRecords : Nat
  deriving Repr, DecidableEq

/-- `DatabaseService.canResumeRun` (`src/database.js` lines 336-358):
`canResume` is `processed_records < total_source_records`;
`lastProcessedId` is `MAX(original_id)` of the run's outcome rows. -/
def canResumeRun (runId : String) (source : List SourceRow)
    (results : List OutcomeRow) : ResumeInfo :=
  let runRows := results.filter fun r => r.runId == runId
  { canResume := runRows.length < source.length,
    lastProcessedId := maxOriginalId runRows,
    processedRecords := runRows.length,
    totalRecords := source.length }

/-- The resume branch of `ArnCleanupService.cleanup` (`src/cleanup.js`
lines 139-147): throws when `canResumeRun` denies the resume, otherwise
adopts `lastProcessedId` as the resume cursor. -/
def resumeDecision (runId : String) (source : List SourceRow)
    (results : List OutcomeRow) : Except String (Option Int) :=
  let info := canResumeRun runId source results
  if !info.canResume then
    .error ("Run " ++ runId ++ " is already complete or doesn't exist")
  else
    .ok info.lastProcessedId

/-- Outcome of one remote `DeleteEndpoint` call in `arn-cleanup.js`:
success, or a thrown error whose `message` may be `undefined`. -/
inductive DeleteOutcome where
  | ok
  | err (name : String) (message : Option String)
  deriving Repr, DecidableEq

/-- The statistics object of `ARNCleanupService` (`src/arn-cleanup.js`
lines 32-38). -/
structure DelStats where
  totalProcessed : Nat
  deleted : Nat
  alreadyDeleted : Nat
  errors : Nat
  deriving Repr, DecidableEq

/-- One record handed to `deleteARNBatch` (id and ARN; the other joined
columns do not influence the control flow). -/
structure DelRecord where
  id : Int
  originalId : Int
  arn : String
  deriving Repr, DecidableEq

/-- One result row pushed by `deleteARNBatch`. -/
structure DelResult where
  record : DelRecord
  status : String
  error : Option String
  deriving Repr, DecidableEq

/-- The not-found test of the delete catch block (`src/arn-cleanup.js`
line 187): `error.name === 'NotFound' || error.message?.includes('does not
exist')` — an absent message makes the second test falsy. -/
def isAlreadyDeletedErr (name : String) (message : Option String) : Bool :=
  name == "NotFound" ||
  (match message with | some m => strHasSub m "does not exist" | none => false)

/-- `ARNCleanupService.deleteARNBatch` (`src/arn-cleanup.js` lines 153-207):
sequential loop; dry-run records are pushed as `DRY_RUN_SUCCESS` and skip
the statistics (the `continue` bypasses `totalProcessed++`); a successful
delete is `DELETED`; a failure is `ALREADY_DELETED` (idempotent success)
when it matches the not-found test and `ERROR` otherwise, with the
corresponding statistic incremented.  `behav` gives each ARN's delete-call
outcome. -/
def deleteARNBatch (dryRun : Bool) (behav : String → DeleteOutcome) :
    List DelRecord → DelStats → List DelResult × DelStats
  | [], stats => ([], stats)
  | r :: rest, stats =>
    if dryRun then
      let t := deleteARNBatch dryRun behav rest stats
      (⟨r, "DRY_RUN_SUCCESS", none⟩ :: t.1, t.2)
    else
      match behav r.arn with
      | .ok =>
        let stats' := { stats with
                        deleted := stats.deleted + 1,
                        totalProcessed := stats.totalProcessed + 1 }
        let t := deleteARNBatch dryRun behav rest stats'
        (⟨r, "DELETED", none⟩ :: t.1, t.2)
      | .err name msg =>
        if isAlreadyDeletedErr name msg then
          let stats' := { stats with
                          alreadyDeleted := stats.alreadyDeleted + 1,
                          totalProcessed := stats.totalProcessed + 1 }
          let t := deleteARNBatch dryRun behav rest stats'
          (⟨r, "ALREADY_DELETED", msg⟩ :: t.1, t.2)
        else
          let stats' := { stats with
                          errors := stats.errors + 1,
                          totalProcessed := stats.totalProcessed + 1 }
          let t := deleteARNBatch dryRun behav rest stats'
          (⟨r, "ERROR", msg⟩ :: t.1, t.2)

/-- The status and error `deleteARNBatch` records for one non-dry-run
delete-call outcome. -/
def delClassify (o : DeleteOutcome) : String × Option String :=
  match o with
  | .ok => ("DELETED", none)
  | .err name msg =>
    if isAlreadyDeletedErr name msg then ("ALREADY_DELETED", msg)
    else ("ERROR", msg)

/-- A status counted by one of `generateSummary`'s four buckets. -/
def countedStatus (r : ArnResult) : Bool :=
  r.status == "ENABLED" || r.status == "DISABLED" || r.status == "ERROR" ||
    r.status == "NOT_FOUND"

/-- A status in the classifier's full outcome taxonomy. -/
def fiveKindStatus (r : ArnResult) : Bool :=
  countedStatus r || r.status == "INVALID"

theorem transient_elim (c : CallResult) (h : isTransientCall c = true) :
    ∃ n m, c = .err n m ∧ isTokenExpiredErr n m = false ∧
      isNotFoundErr n m = false ∧ isInvalidErr n m = false := by
  cases c with
  | ok a => simp [isTransientCall] at h
  | err n m =>
    refine ⟨n, m, rfl, ?_⟩
    simp only [isTransientCall, Bool.and_eq_true, Bool.not_eq_true'] at h
    exact ⟨h.1.1, h.1.2, h.2⟩

theorem go_step_transient (maxR : Nat) (arn : String) (oid : Int)
    (behav : Nat → CallResult) (rOk : Nat → Bool)
    (hval : validateEndpointArn arn = none)
    (fuel retries refr att : Nat) (hlt : retries < maxR)
    (ht : isTransientCall (behav retries) = true) :
    checkArnStatusGo maxR arn oid behav rOk (fuel + 1) retries refr att =
      checkArnStatusGo maxR arn oid behav rOk fuel (retries + 1) refr
        (att + 1) := by
  obtain ⟨n, m, hb, h1, h2, h3⟩ := transient_elim _ ht
  simp only [checkArnStatusGo, hval, hb, h1, h2, h3, Bool.false_and,
    if_neg (by omega : ¬ retries + 1 > maxR), if_false, Bool.false_eq_true]

theorem go_advance (maxR : Nat) (arn : String) (oid : Int)
    (behav : Nat → CallResult) (rOk : Nat → Bool)
    (hval : validateEndpointArn arn = none) :
    ∀ (d fuel retries refr att : Nat), retries + d ≤ maxR →
    (∀ k, retries ≤ k → k < retries + d → isTransientCall (behav k) = true) →
    checkArnStatusGo maxR arn oid behav rOk (d + fuel + 1) retries refr att =
      checkArnStatusGo maxR arn oid behav rOk (fuel + 1) (retries + d) refr
        (att + d) := by
  intro d
  induction d with
  | zero => intro fuel retries refr att _ _; simp
  | succ d ih =>
    intro fuel retries refr att hle hw
    have hs : checkArnStatusGo maxR arn oid behav rOk (d + fuel + 1 + 1)
        retries refr att =
        checkArnStatusGo maxR arn oid behav rOk (d + fuel + 1) (retries + 1)
          refr (att + 1) :=
      go_step_transient maxR arn oid behav rOk hval (d + fuel + 1) retries
        refr att (by omega) (hw retries (by omega) (by omega))
    have h1 : d + 1 + fuel + 1 = d + fuel + 1 + 1 := by omega
    rw [h1, hs, ih fuel (retries + 1) refr (att + 1) (by omega)
      (fun k hk1 hk2 => hw k (by omega) (by omega))]
    have h2 : retries + 1 + d = retries + (d + 1) := by omega
    have h3 : att + 1 + d = att + (d + 1) := by omega
    rw [h2, h3]

theorem go_success (maxR : Nat) (arn : String) (oid : Int)
    (behav : Nat → CallResult) (rOk : Nat → Bool)
    (hval : validateEndpointArn arn = none)
    (fuel n refr att : Nat) (a : Option Attrs) (hb : behav n = .ok a) :
    checkArnStatusGo maxR arn oid behav rOk (fuel + 1) n refr att =
      ⟨(match a with
        | none => mkNoAttributesResult oid arn n
        | some a' => mkSuccessResult oid arn a' n), refr, att + 1⟩ := by
  cases a with
  | none => simp only [checkArnStatusGo, hval, hb]
  | some a' => simp only [checkArnStatusGo, hval, hb]

theorem go_err_exhausted (maxR : Nat) (arn : String) (oid : Int)
    (behav : Nat → CallResult) (rOk : Nat → Bool)
    (hval : validateEndpointArn arn = none)
    (fuel n refr att : Nat) (nm msg : String) (hge : maxR ≤ n)
    (hb : behav n = .err nm msg) :
    checkArnStatusGo maxR arn oid behav rOk (fuel + 1) n refr att =
      ⟨mkErrorResult oid arn nm msg n, refr, att + 1⟩ := by
  simp only [checkArnStatusGo, hval, hb, if_pos (by omega : n + 1 > maxR)]

theorem go_err_notfound (maxR : Nat) (arn : String) (oid : Int)
    (behav : Nat → CallResult) (rOk : Nat → Bool)
    (hval : validateEndpointArn arn = none)
    (fuel n refr att : Nat) (nm msg : String) (hlt : n < maxR)
    (hb : behav n = .err nm msg)
    (h1 : isTokenExpiredErr nm msg = false)
    (h2 : isNotFoundErr nm msg = true) :
    checkArnStatusGo maxR arn oid behav rOk (fuel + 1) n refr att =
      ⟨mkNotFoundErrResult oid arn nm msg n, refr, att + 1⟩ := by
  simp only [checkArnStatusGo, hval, hb, h1, h2, Bool.false_and,
    if_neg (by omega : ¬ n + 1 > maxR), if_false, Bool.false_eq_true, if_true]

theorem go_err_invalid (maxR : Nat) (arn : String) (oid : Int)
    (behav : Nat → CallResult) (rOk : Nat → Bool)
    (hval : validateEndpointArn arn = none)
    (fuel n refr att : Nat) (nm msg : String) (hlt : n < maxR)
    (hb : behav n = .err nm msg)
    (h1 : isTokenExpiredErr nm msg = false)
    (h2 : isNotFoundErr nm msg = false)
    (h3 : isInvalidErr nm msg = true) :
    checkArnStatusGo maxR arn oid behav rOk (fuel + 1) n refr att =
      ⟨mkInvalidResult oid arn nm msg n, refr, att + 1⟩ := by
  simp only [checkArnStatusGo, hval, hb, h1, h2, h3, Bool.false_and,
    if_neg (by omega : ¬ n + 1 > maxR), if_false, Bool.false_eq_true, if_true]

theorem validateMsg_flags (arn m : String)
    (h : validateEndpointArn arn = some m) :
    isTokenExpiredErr "Error" m = false ∧ isNotFoundErr "Error" m = false ∧
      isInvalidErr "Error" m = false := by
  unfold validateEndpointArn at h
  split at h
  · cases h; decide
  · split at h
    · cases h; decide
    · split at h
      · cases h; decide
      · cases h

theorem go_step_valfail (maxR : Nat) (arn : String) (oid : Int)
    (behav : Nat → CallResult) (rOk : Nat → Bool) (m : String)
    (hval : validateEndpointArn arn = some m)
    (fuel retries refr att : Nat) (hlt : retries < maxR) :
    checkArnStatusGo maxR arn oid behav rOk (fuel + 1) retries refr att =
      checkArnStatusGo maxR arn oid behav rOk fuel (retries + 1) refr
        (att + 1) := by
  obtain ⟨h1, h2, h3⟩ := validateMsg_flags arn m hval
  simp only [checkArnStatusGo, hval, h1, h2, h3, Bool.false_and,
    if_neg (by omega : ¬ retries + 1 > maxR), if_false, Bool.false_eq_true]

theorem go_advance_valfail (maxR : Nat) (arn : String) (oid : Int)
    (behav : Nat → CallResult) (rOk : Nat → Bool) (m : String)
    (hval : validateEndpointArn arn = some m) :
    ∀ (d fuel retries refr att : Nat), retries + d ≤ maxR →
    checkArnStatusGo maxR arn oid behav rOk (d + fuel + 1) retries refr att =
      checkArnStatusGo maxR arn oid behav rOk (fuel + 1) (retries + d) refr
        (att + d) := by
  intro d
  induction d with
  | zero => intro fuel retries refr att _; simp
  | succ d ih =>
    intro fuel retries refr att hle
    have h1 : d + 1 + fuel + 1 = d + fuel + 1 + 1 := by omega
    rw [h1, go_step_valfail maxR arn oid behav rOk m hval (d + fuel + 1)
      retries refr att (by omega),
      ih fuel (retries + 1) refr (att + 1) (by omega)]
    have h2 : retries + 1 + d = retries + (d + 1) := by omega
    have h3 : att + 1 + d = att + (d + 1) := by omega
    rw [h2, h3]

theorem go_final_valfail (maxR : Nat) (arn : String) (oid : Int)
    (behav : Nat → CallResult) (rOk : Nat → Bool) (m : String)
    (hval : validateEndpointArn arn = some m)
    (fuel n refr att : Nat) (hge : maxR ≤ n) :
    checkArnStatusGo maxR arn oid behav rOk (fuel + 1) n refr att =
      ⟨mkErrorResult oid arn "Error" m n, refr, att + 1⟩ := by
  simp only [checkArnStatusGo, hval, if_pos (by omega : n + 1 > maxR)]

/-- Any ARN rejected by local validation is retried on every attempt and
ends as `ERROR` with "Max retries exceeded" after `maxRetries + 1` attempts:
the validation error message matches none of the terminal or auth
patterns. -/
theorem checkArnStatus_valfail (maxR : Nat) (arn : String) (oid : Int)
    (behav : Nat → CallResult) (rOk : Nat → Bool) (m : String)
    (hval : validateEndpointArn arn = some m) :
    checkArnStatus maxR arn oid behav rOk =
      ⟨mkErrorResult oid arn "Error" m maxR, 0, maxR + 1⟩ := by
  unfold checkArnStatus
  have h1 : maxR + 1 = maxR + 0 + 1 := by omega
  rw [h1, go_advance_valfail maxR arn oid behav rOk m hval maxR 0 0 0 0
    (by omega)]
  have := go_final_valfail maxR arn oid behav rOk m hval 0 (0 + maxR) 0
    (0 + maxR) (by omega)
  rw [this]
  have h2 : 0 + maxR = maxR := by omega
  rw [h2]

/-- A success at attempt `n` after `n` transient failures ends the loop with
the success-path result, no forced refresh, and `n + 1` attempts. -/
theorem checkArnStatus_success_eq (maxR : Nat) (arn : String) (oid : Int)
    (behav : Nat → CallResult) (rOk : Nat → Bool)
    (hval : validateEndpointArn arn = none) (n : Nat) (a : Option Attrs)
    (hle : n ≤ maxR)
    (hw : ∀ k, k < n → isTransientCall (behav k) = true)
    (hn : behav n = .ok a) :
    checkArnStatus maxR arn oid behav rOk =
      ⟨(match a with
        | none => mkNoAttributesResult oid arn n
        | some a' => mkSuccessResult oid arn a' n), 0, n + 1⟩ := by
  unfold checkArnStatus
  have h1 : maxR + 1 = n + (maxR - n) + 1 := by omega
  rw [h1, go_advance maxR arn oid behav rOk hval n (maxR - n) 0 0 0 (by omega)
    (fun k _ hk2 => hw k (by omega)),
    go_success maxR arn oid behav rOk hval (maxR - n) (0 + n) 0 (0 + n) a
      (by simpa using hn)]
  simp only [Nat.zero_add]
  cases a <;> rfl

/-- Transient failures on every attempt exhaust the budget: the loop returns
the max-retries-exceeded result carrying the last error, after
`maxRetries + 1` attempts. -/
theorem checkArnStatus_exhausted_eq (maxR : Nat) (arn : String) (oid : Int)
    (behav : Nat → CallResult) (rOk : Nat → Bool)
    (hval : validateEndpointArn arn = none) (nm msg : String)
    (hw : ∀ k, k < maxR → isTransientCall (behav k) = true)
    (hn : behav maxR = .err nm msg) :
    checkArnStatus maxR arn oid behav rOk =
      ⟨mkErrorResult oid arn nm msg maxR, 0, maxR + 1⟩ := by
  unfold checkArnStatus
  have h1 : maxR + 1 = maxR + 0 + 1 := by omega
  rw [h1, go_advance maxR arn oid behav rOk hval maxR 0 0 0 0 (by omega)
    (fun k _ hk2 => hw k (by omega)),
    go_err_exhausted maxR arn oid behav rOk hval 0 (0 + maxR) 0 (0 + maxR)
      nm msg (by omega) (by simpa using hn)]
  simp

/-- A not-found failure at attempt `n < maxRetries` (not matching the auth
pattern), after `n` transient failures, returns the not-found result
immediately. -/
theorem checkArnStatus_notfound_eq (maxR : Nat) (arn : String) (oid : Int)
    (behav : Nat → CallResult) (rOk : Nat → Bool)
    (hval : validateEndpointArn arn = none) (n : Nat) (nm msg : String)
    (hlt : n < maxR)
    (hw : ∀ k, k < n → isTransientCall (behav k) = true)
    (hn : behav n = .err nm msg)
    (h1 : isTokenExpiredErr nm msg = false)
    (h2 : isNotFoundErr nm msg = true) :
    checkArnStatus maxR arn oid behav rOk =
      ⟨mkNotFoundErrResult oid arn nm msg n, 0, n + 1⟩ := by
  unfold checkArnStatus
  have he : maxR + 1 = n + (maxR - n) + 1 := by omega
  rw [he, go_advance maxR arn oid behav rOk hval n (maxR - n) 0 0 0 (by omega)
    (fun k _ hk2 => hw k (by omega)),
    go_err_notfound maxR arn oid behav rOk hval (maxR - n) (0 + n) 0 (0 + n)
      nm msg (by omega) (by simpa using hn) h1 h2]
  simp

/-- An invalid-parameter failure at attempt `n < maxRetries` (matching
neither the auth nor the not-found pattern), after `n` transient failures,
returns the invalid result immediately. -/
theorem checkArnStatus_invalid_eq (maxR : Nat) (arn : String) (oid : Int)
    (behav : Nat → CallResult) (rOk : Nat → Bool)
    (hval : validateEndpointArn arn = none) (n : Nat) (nm msg : String)
    (hlt : n < maxR)
    (hw : ∀ k, k < n → isTransientCall (behav k) = true)
    (hn : behav n = .err nm msg)
    (h1 : isTokenExpiredErr nm msg = false)
    (h2 : isNotFoundErr nm msg = false)
    (h3 : isInvalidErr nm msg = true) :
    checkArnStatus maxR arn oid behav rOk =
      ⟨mkInvalidResult oid arn nm msg n, 0, n + 1⟩ := by
  unfold checkArnStatus
  have he : maxR + 1 = n + (maxR - n) + 1 := by omega
  rw [he, go_advance maxR arn oid behav rOk hval n (maxR - n) 0 0 0 (by omega)
    (fun k _ hk2 => hw k (by omega)),
    go_err_invalid maxR arn oid behav rOk hval (maxR - n) (0 + n) 0 (0 + n)
      nm msg (by omega) (by simpa using hn) h1 h2 h3]
  simp

/-- Claim C1: contrary to the claim (and to the source's own comment "Don't
increment retry counter for token expiration, just retry"), an
ExpiredToken failure does consume a retry-count slot: `retries++` at the top
of the catch block precedes the token-expiration branch and is never undone.
Here one ExpiredToken failure (with a successful forced refresh) followed by
a clean success yields exactly one refresh but `retryCount = 1`, not the 0
the claim requires. -/
theorem checkArnStatus_authExpired_consumes_retry_slot :
    (checkArnStatus 3 "arn:aws:sns:r:1:endpoint/APNS/app/x" 7
      (fun k => if k = 0 then
        .err "ExpiredToken"
          "The security token included in the request is expired"
        else .ok (some ⟨some "true", some "devtok", none, none⟩))
      (fun _ => true)).refreshes = 1 ∧
    (checkArnStatus 3 "arn:aws:sns:r:1:endpoint/APNS/app/x" 7
      (fun k => if k = 0 then
        .err "ExpiredToken"
          "The security token included in the request is expired"
        else .ok (some ⟨some "true", some "devtok", none, none⟩))
      (fun _ => true)).result.status = "ENABLED" ∧
    (checkArnStatus 3 "arn:aws:sns:r:1:endpoint/APNS/app/x" 7
      (fun k => if k = 0 then
        .err "ExpiredToken"
          "The security token included in the request is expired"
        else .ok (some ⟨some "true", some "devtok", none, none⟩))
      (fun _ => true)).result.retryCount = 1 := by
  refine ⟨?_, ?_, ?_⟩ <;> decide

/-- Claim C3 counterexample: an ARN rejected by local validation
(`validateEndpointArn`) is not classified `INVALID` on the failing attempt —
its error message matches none of the terminal patterns, so it is retried
like a transient error and ends as `ERROR` after all four attempts. -/
theorem validation_error_not_classified_invalid :
    (checkArnStatus 3 "not-an-arn" 7 (fun _ => .err "X" "y")
      (fun _ => true)).result.status = "ERROR" ∧
    (checkArnStatus 3 "not-an-arn" 7 (fun _ => .err "X" "y")
      (fun _ => true)).result.status ≠ "INVALID" ∧
    (checkArnStatus 3 "not-an-arn" 7 (fun _ => .err "X" "y")
      (fun _ => true)).attempts = 4 := by
  refine ⟨?_, ?_, ?_⟩ <;> decide

/-- Claim C3 (amended): a remote failure matching the not-found pattern is
classified `NOT_FOUND`, and one matching the invalid-parameter pattern (and
not the not-found pattern) `INVALID`, immediately on the failing attempt
with no further retry — provided the failure does not also match the auth
pattern and does not occur on the attempt that exhausts the retry budget
(there, the retries-exceeded `ERROR` takes priority).  A malformed ARN
rejected by local validation is not terminal: every attempt throws the
validation error and the result is `ERROR` "Max retries exceeded". -/
theorem checkArnStatus_terminal_classification_amended (maxR : Nat)
    (arn : String) (oid : Int) (behav : Nat → CallResult)
    (rOk : Nat → Bool) :
    (∀ n nm msg, validateEndpointArn arn = none → n < maxR →
      (∀ k, k < n → isTransientCall (behav k) = true) →
      behav n = .err nm msg → isTokenExpiredErr nm msg = false →
      isNotFoundErr nm msg = true →
      checkArnStatus maxR arn oid behav rOk =
        ⟨mkNotFoundErrResult oid arn nm msg n, 0, n + 1⟩) ∧
    (∀ n nm msg, validateEndpointArn arn = none → n < maxR →
      (∀ k, k < n → isTransientCall (behav k) = true) →
      behav n = .err nm msg → isTokenExpiredErr nm msg = false →
      isNotFoundErr nm msg = false → isInvalidErr nm msg = true →
      checkArnStatus maxR arn oid behav rOk =
        ⟨mkInvalidResult oid arn nm msg n, 0, n + 1⟩) ∧
    (∀ m, validateEndpointArn arn = some m →
      checkArnStatus maxR arn oid behav rOk =
        ⟨mkErrorResult oid arn "Error" m maxR, 0, maxR + 1⟩) := by
  refine ⟨?_, ?_, ?_⟩
  · intro n nm msg hval hlt hw hn h1 h2
    exact checkArnStatus_notfound_eq maxR arn oid behav rOk hval n nm msg
      hlt hw hn h1 h2
  · intro n nm msg hval hlt hw hn h1 h2 h3
    exact checkArnStatus_invalid_eq maxR arn oid behav rOk hval n nm msg
      hlt hw hn h1 h2 h3
  · intro m hval
    exact checkArnStatus_valfail maxR arn oid behav rOk m hval

/-- Witness for the amended C3 theorem: a NotFound failure on the first
attempt (budget 3) is classified `NOT_FOUND` immediately with
`retryCount = 0` and one attempt. -/
theorem checkArnStatus_terminal_classification_witness :
    checkArnStatus 3 "arn:aws:sns:r:1:endpoint/APNS/app/x" 7
      (fun _ => .err "NotFound" "Endpoint does not exist")
      (fun _ => true) =
      ⟨mkNotFoundErrResult 7 "arn:aws:sns:r:1:endpoint/APNS/app/x"
        "NotFound" "Endpoint does not exist" 0, 0, 1⟩ :=
  (checkArnStatus_terminal_classification_amended 3
      "arn:aws:sns:r:1:endpoint/APNS/app/x" 7
      (fun _ => .err "NotFound" "Endpoint does not exist")
      (fun _ => true)).1 0 "NotFound" "Endpoint does not exist"
    (by decide) (by decide) (fun k hk => absurd hk (Nat.not_lt_zero k))
    (by decide) (by decide) (by decide)

/-- Claim C5: with retry budget `R = maxRetries`, transient failures on
every attempt make exactly `R + 1` attempts and return `ERROR` with
`retryCount = R`; transient failures followed by a success at attempt
`n ≤ R` return the single success-path result with `retryCount = n` after
`n + 1` attempts (the config default for `R` is 3). -/
theorem checkArnStatus_retry_budget (maxR : Nat) (arn : String) (oid : Int)
    (behav : Nat → CallResult) (rOk : Nat → Bool)
    (hval : validateEndpointArn arn = none) :
    ((∀ k, k ≤ maxR → isTransientCall (behav k) = true) →
      (checkArnStatus maxR arn oid behav rOk).result.status = "ERROR" ∧
      (checkArnStatus maxR arn oid behav rOk).result.statusReason =
        "Max retries exceeded" ∧
      (checkArnStatus maxR arn oid behav rOk).result.retryCount = maxR ∧
      (checkArnStatus maxR arn oid behav rOk).attempts = maxR + 1) ∧
    (∀ n a, n ≤ maxR → (∀ k, k < n → isTransientCall (behav k) = true) →
      behav n = .ok a →
      checkArnStatus maxR arn oid behav rOk =
        ⟨(match a with
          | none => mkNoAttributesResult oid arn n
          | some a' => mkSuccessResult oid arn a' n), 0, n + 1⟩) ∧
    configMaxRetriesDefault = 3 := by
  refine ⟨?_, ?_, rfl⟩
  · intro ht
    obtain ⟨nm, msg, hb, _, _, _⟩ :=
      transient_elim (behav maxR) (ht maxR (Nat.le_refl maxR))
    rw [checkArnStatus_exhausted_eq maxR arn oid behav rOk hval nm msg
      (fun k hk => ht k (by omega)) hb]
    exact ⟨rfl, rfl, rfl, rfl⟩
  · intro n a hle hw hn
    rw [checkArnStatus_success_eq maxR arn oid behav rOk hval n a hle hw hn]
    cases a <;> rfl

/-- Witness for C5: budget 3; two throttling failures then a success give
the success result with `retryCount = 2` after 3 attempts; and four
throttling failures give `ERROR` with `retryCount = 3` after 4 attempts. -/
theorem checkArnStatus_retry_budget_witness :
    checkArnStatus 3 "arn:aws:sns:r:1:endpoint/APNS/app/x" 7
      (fun k => if k < 2 then .err "Throttling" "Rate exceeded"
        else .ok (some ⟨some "true", some "devtok", none, none⟩))
      (fun _ => true) =
      ⟨mkSuccessResult 7 "arn:aws:sns:r:1:endpoint/APNS/app/x"
        ⟨some "true", some "devtok", none, none⟩ 2, 0, 3⟩ ∧
    (checkArnStatus 3 "arn:aws:sns:r:1:endpoint/APNS/app/x" 7
      (fun _ => .err "Throttling" "Rate exceeded")
      (fun _ => true)).result.status = "ERROR" ∧
    (checkArnStatus 3 "arn:aws:sns:r:1:endpoint/APNS/app/x" 7
      (fun _ => .err "Throttling" "Rate exceeded")
      (fun _ => true)).result.retryCount = 3 ∧
    (checkArnStatus 3 "arn:aws:sns:r:1:endpoint/APNS/app/x" 7
      (fun _ => .err "Throttling" "Rate exceeded")
      (fun _ => true)).attempts = 4 := by
  refine ⟨?_, ?_⟩
  · exact (checkArnStatus_retry_budget 3
      "arn:aws:sns:r:1:endpoint/APNS/app/x" 7
      (fun k => if k < 2 then .err "Throttling" "Rate exceeded"
        else .ok (some ⟨some "true", some "devtok", none, none⟩))
      (fun _ => true) (by decide)).2.1 2
      (some ⟨some "true", some "devtok", none, none⟩)
      (by decide) (by decide) (by decide)
  · have h := ((checkArnStatus_retry_budget 3
      "arn:aws:sns:r:1:endpoint/APNS/app/x" 7
      (fun _ => .err "Throttling" "Rate exceeded")
      (fun _ => true) (by decide)).1 (by decide))
    exact ⟨h.1, h.2.2.1, h.2.2.2⟩

/-- Claim C6: for a successful first-attempt response with attributes, the
classification is exactly: enabled flag not `'true'` → `DISABLED`
("Endpoint is disabled in SNS"); enabled but no truthy token → `DISABLED`
("No device token found"); enabled with truthy token → `ENABLED`; and no
status other than these two arises from a response with attributes. -/
theorem checkArnStatus_attrs_classification (maxR : Nat) (arn : String)
    (oid : Int) (behav : Nat → CallResult) (rOk : Nat → Bool) (a : Attrs)
    (hval : validateEndpointArn arn = none)
    (h0 : behav 0 = .ok (some a)) :
    (a.Enabled ≠ some "true" →
      (checkArnStatus maxR arn oid behav rOk).result.status = "DISABLED" ∧
      (checkArnStatus maxR arn oid behav rOk).result.statusReason =
        "Endpoint is disabled in SNS") ∧
    (a.Enabled = some "true" → tokenTruthy a.Token = false →
      (checkArnStatus maxR arn oid behav rOk).result.status = "DISABLED" ∧
      (checkArnStatus maxR arn oid behav rOk).result.statusReason =
        "No device token found") ∧
    (a.Enabled = some "true" → tokenTruthy a.Token = true →
      (checkArnStatus maxR arn oid behav rOk).result.status = "ENABLED" ∧
      (checkArnStatus maxR arn oid behav rOk).result.statusReason =
        "Endpoint is enabled with valid token") ∧
    ((checkArnStatus maxR arn oid behav rOk).result.status = "ENABLED" ∨
      (checkArnStatus maxR arn oid behav rOk).result.status = "DISABLED") := by
  have he : checkArnStatus maxR arn oid behav rOk =
      ⟨mkSuccessResult oid arn a 0, 0, 1⟩ := by
    rw [checkArnStatus_success_eq maxR arn oid behav rOk hval 0 (some a)
      (Nat.zero_le maxR) (fun k hk => absurd hk (Nat.not_lt_zero k)) h0]
  rw [he]
  by_cases hE : a.Enabled = some "true"
  · by_cases hT : tokenTruthy a.Token = true
    · simp [mkSuccessResult, hE, hT]
    · simp only [Bool.not_eq_true] at hT
      simp [mkSuccessResult, hE, hT]
  · have hE' : (a.Enabled == some "true") = false := by
      simp [beq_iff_eq, hE]
    simp [mkSuccessResult, hE', hE]

/-- Witness for C6 at a concrete enabled endpoint with a token. -/
theorem checkArnStatus_attrs_classification_witness :
    (checkArnStatus 3 "arn:aws:sns:r:1:endpoint/APNS/app/x" 7
      (fun _ => .ok (some ⟨some "true", some "devtok", none, none⟩))
      (fun _ => true)).result.status = "ENABLED" ∧
    (checkArnStatus 3 "arn:aws:sns:r:1:endpoint/APNS/app/x" 7
      (fun _ => .ok (some ⟨some "false", some "devtok", none, none⟩))
      (fun _ => true)).result.status = "DISABLED" ∧
    (checkArnStatus 3 "arn:aws:sns:r:1:endpoint/APNS/app/x" 7
      (fun _ => .ok (some ⟨some "true", none, none, none⟩))
      (fun _ => true)).result.status = "DISABLED" := by
  refine ⟨?_, ?_, ?_⟩
  · exact ((checkArnStatus_attrs_classification 3
      "arn:aws:sns:r:1:endpoint/APNS/app/x" 7
      (fun _ => .ok (some ⟨some "true", some "devtok", none, none⟩))
      (fun _ => true) ⟨some "true", some "devtok", none, none⟩
      (by decide) (by decide)).2.2.1 (by decide) (by decide)).1
  · exact ((checkArnStatus_attrs_classification 3
      "arn:aws:sns:r:1:endpoint/APNS/app/x" 7
      (fun _ => .ok (some ⟨some "false", some "devtok", none, none⟩))
      (fun _ => true) ⟨some "false", some "devtok", none, none⟩
      (by decide) (by decide)).1 (by decide)).1
  · exact ((checkArnStatus_attrs_classification 3
      "arn:aws:sns:r:1:endpoint/APNS/app/x" 7
      (fun _ => .ok (some ⟨some "true", none, none, none⟩))
      (fun _ => true) ⟨some "true", none, none, none⟩
      (by decide) (by decide)).2.1 (by decide) (by decide)).1

set_option maxRecDepth 20000 in
/-- Claim C10 counterexample: the stored metadata token can equal the
complete token — a 23-character token that is exactly its own first 20
characters followed by "..." is stored verbatim, so "never the complete
token value" fails. -/
theorem checkArnStatus_token_can_equal_full :
    (checkArnStatus 3 "arn:aws:sns:r:1:endpoint/APNS/app/x" 7
      (fun _ => .ok (some ⟨some "true", some "aaaaaaaaaaaaaaaaaaaa...",
        none, none⟩))
      (fun _ => true)).result.metaToken = some "aaaaaaaaaaaaaaaaaaaa..." := by
  decide

/-- Claim C10 (amended): for every successful result with attributes, the
stored `metadata.token` is `null` when the endpoint has no truthy token and
otherwise the token's first 20 characters followed by "..."; it therefore
differs from the complete token except in the degenerate case where the
token equals its own first 20 characters followed by "...". -/
theorem checkArnStatus_token_truncation_amended (maxR : Nat) (arn : String)
    (oid : Int) (behav : Nat → CallResult) (rOk : Nat → Bool) (n : Nat)
    (a : Attrs) (hval : validateEndpointArn arn = none) (hle : n ≤ maxR)
    (hw : ∀ k, k < n → isTransientCall (behav k) = true)
    (hn : behav n = .ok (some a)) :
    ((checkArnStatus maxR arn oid behav rOk).result.metaToken =
      match a.Token with
      | some t => if t ≠ "" then some (t.take 20 ++ "...") else none
      | none => none) ∧
    (∀ t, a.Token = some t → t ≠ "" → t.take 20 ++ "..." ≠ t →
      (checkArnStatus maxR arn oid behav rOk).result.metaToken ≠ some t) := by
  have he : checkArnStatus maxR arn oid behav rOk =
      ⟨mkSuccessResult oid arn a n, 0, n + 1⟩ := by
    rw [checkArnStatus_success_eq maxR arn oid behav rOk hval n (some a)
      hle hw hn]
  rw [he]
  constructor
  · rfl
  · intro t ht htne hne
    simp only [mkSuccessResult, ht, if_pos htne]
    intro hcontra
    exact hne (Option.some.inj hcontra)

set_option maxRecDepth 20000 in
/-- Witness for the amended C10 theorem: a 28-character token is stored as
its first 20 characters plus "...", which differs from the full token. -/
theorem checkArnStatus_token_truncation_witness :
    (checkArnStatus 3 "arn:aws:sns:r:1:endpoint/APNS/app/x" 7
      (fun _ => .ok (some ⟨some "true", some "0123456789012345678901234567",
        none, none⟩))
      (fun _ => true)).result.metaToken ≠
      some "0123456789012345678901234567" :=
  (checkArnStatus_token_truncation_amended 3
      "arn:aws:sns:r:1:endpoint/APNS/app/x" 7
      (fun _ => .ok (some ⟨some "true", some "0123456789012345678901234567",
        none, none⟩))
      (fun _ => true) 0 ⟨some "true", some "0123456789012345678901234567",
        none, none⟩
      (by decide) (by decide) (fun k hk => absurd hk (Nat.not_lt_zero k))
      (by decide)).2 "0123456789012345678901234567" rfl (by decide)
    (by decide)

/-- Claim C2: contrary to the claim, a `resumeRunId` naming a run with no
recorded outcome rows does not make `cleanup` throw when the source table is
non-empty: `canResumeRun` only compares `processed_records <
total_source_records` (here `0 < 1`), so the resume proceeds with a `null`
`lastProcessedId` — despite the error message's own "or doesn't exist"
wording. -/
theorem resumeDecision_missing_run_proceeds :
    resumeDecision "run-x" [⟨1, some "a"⟩] [] = .ok none ∧
    (canResumeRun "run-x" [⟨1, some "a"⟩] []).canResume = true ∧
    (canResumeRun "run-x" [⟨1, some "a"⟩] []).processedRecords = 0 := by
  refine ⟨rfl, rfl, rfl⟩

theorem sumCounts_summaryStep (acc : Summary) (r : ArnResult) :
    sumCounts (summaryStep acc r) =
      sumCounts acc + (if countedStatus r then 1 else 0) := by
  unfold summaryStep sumCounts countedStatus
  by_cases h1 : r.status == "ENABLED"
  · simp [h1]; omega
  · by_cases h2 : r.status == "DISABLED"
    · simp [h1, h2]; omega
    · by_cases h3 : r.status == "ERROR"
      · simp [h1, h2, h3]; omega
      · by_cases h4 : r.status == "NOT_FOUND"
        · simp [h1, h2, h3, h4]; omega
        · simp [h1, h2, h3, h4]

theorem sumCounts_foldl (l : List ArnResult) :
    ∀ acc : Summary, sumCounts (List.foldl summaryStep acc l) =
      sumCounts acc + l.countP countedStatus := by
  induction l with
  | nil => intro acc; simp
  | cons r rest ih =>
    intro acc
    rw [List.foldl_cons, ih (summaryStep acc r), List.countP_cons,
      sumCounts_summaryStep]
    omega

theorem countP_cover (p q : ArnResult → Bool) :
    ∀ l : List ArnResult, (∀ r ∈ l, p r = !q r) →
      l.countP p + l.countP q = l.length := by
  intro l
  induction l with
  | nil => intro _; simp
  | cons r rest ih =>
    intro h
    have hih := ih (fun x hx => h x (List.mem_cons_of_mem r hx))
    have hr := h r (List.mem_cons_self r rest)
    rw [List.countP_cons, List.countP_cons, List.length_cons]
    cases hq : q r <;> simp [hq] at hr <;> simp [hr, hq] <;> omega

/-- Claim C4 counterexample: a result the checker can produce (an
`InvalidParameter` failure classified `INVALID`) is dropped by the summary —
its four per-kind counts sum to 0 for a one-element result list, so the
counts do not account for every processed result. -/
theorem generateSummary_drops_invalid :
    sumCounts (generateSummary
      [(checkArnStatus 3 "arn:aws:sns:r:1:endpoint/APNS/app/x" 5
        (fun _ => .err "InvalidParameter" "Invalid parameter: bad")
        (fun _ => true)).result]) = 0 ∧
    [(checkArnStatus 3 "arn:aws:sns:r:1:endpoint/APNS/app/x" 5
        (fun _ => .err "InvalidParameter" "Invalid parameter: bad")
        (fun _ => true)).result].length = 1 := by
  refine ⟨?_, rfl⟩
  decide

/-- Claim C4 (amended): `generateSummary`'s four per-kind counts account for
every result except those with status `INVALID` (for which the switch has no
case): over any mix of the five checker statuses, the counts sum to the
total processed minus the number of `INVALID` results. -/
theorem generateSummary_partition_amended (results : List ArnResult)
    (h : ∀ r ∈ results, fiveKindStatus r = true) :
    sumCounts (generateSummary results) +
      results.countP (fun r => r.status == "INVALID") = results.length := by
  unfold generateSummary
  rw [sumCounts_foldl results ⟨0, 0, 0, 0⟩]
  have hz : sumCounts ⟨0, 0, 0, 0⟩ = 0 := rfl
  rw [hz, Nat.zero_add]
  refine countP_cover countedStatus (fun r => r.status == "INVALID")
    results (fun r hr => ?_)
  have h5 := h r hr
  unfold fiveKindStatus at h5
  unfold countedStatus at h5 ⊢
  by_cases hI : r.status == "INVALID"
  · have hIe : r.status = "INVALID" := by simpa [beq_iff_eq] using hI
    simp [hIe]
  · simp only [hI, Bool.or_false] at h5
    simp [h5, hI]

/-- Witness for the amended C4 theorem on a two-element list containing an
`INVALID` result and an `ERROR` result. -/
theorem generateSummary_partition_witness :
    sumCounts (generateSummary [mkInvalidResult 1 "a" "N" "M" 0,
        mkErrorResult 2 "b" "N" "M" 3]) +
      [mkInvalidResult 1 "a" "N" "M" 0,
        mkErrorResult 2 "b" "N" "M" 3].countP
        (fun r => r.status == "INVALID") =
      [mkInvalidResult 1 "a" "N" "M" 0,
        mkErrorResult 2 "b" "N" "M" 3].length :=
  generateSummary_partition_amended _ (by decide)

/-- Claim C9: in the destructive variant, each record whose delete call
fails with the not-found signal gets status `ALREADY_DELETED` and increments
the `alreadyDeleted` statistic (an idempotent success); every other failure
gets `ERROR` and increments `errors`; successes get `DELETED`; the
sequential batch loop produces one result per record and counts each in
`totalProcessed`. -/
theorem deleteARNBatch_classification (behav : String → DeleteOutcome) :
    ∀ (batch : List DelRecord) (stats : DelStats),
    (deleteARNBatch false behav batch stats).1 =
      batch.map (fun r => ⟨r, (delClassify (behav r.arn)).1,
        (delClassify (behav r.arn)).2⟩) ∧
    (deleteARNBatch false behav batch stats).2.deleted =
      stats.deleted + batch.countP (fun r => behav r.arn == .ok) ∧
    (deleteARNBatch false behav batch stats).2.alreadyDeleted =
      stats.alreadyDeleted + batch.countP (fun r =>
        match behav r.arn with
        | .ok => false
        | .err nm msg => isAlreadyDeletedErr nm msg) ∧
    (deleteARNBatch false behav batch stats).2.errors =
      stats.errors + batch.countP (fun r =>
        match behav r.arn with
        | .ok => false
        | .err nm msg => !isAlreadyDeletedErr nm msg) ∧
    (deleteARNBatch false behav batch stats).2.totalProcessed =
      stats.totalProcessed + batch.length := by
  intro batch
  induction batch with
  | nil =>
    intro stats
    refine ⟨rfl, ?_, ?_, ?_, ?_⟩ <;> simp [deleteARNBatch]
  | cons r rest ih =>
    intro stats
    cases hb : behav r.arn with
    | ok =>
      have h := ih ⟨stats.totalProcessed + 1, stats.deleted + 1,
        stats.alreadyDeleted, stats.errors⟩
      simp only [deleteARNBatch, Bool.false_eq_true, if_false, hb,
        List.map_cons, List.countP_cons, List.length_cons]
      refine ⟨?_, ?_, ?_, ?_, ?_⟩
      · simp [h.1, delClassify, hb]
      · simp [h.2.1, hb]; omega
      · simp [h.2.2.1]
      · simp [h.2.2.2.1]
      · simp [h.2.2.2.2]; omega
    | err nm msg =>
      by_cases ha : isAlreadyDeletedErr nm msg = true
      · have h := ih ⟨stats.totalProcessed + 1, stats.deleted,
          stats.alreadyDeleted + 1, stats.errors⟩
        simp only [deleteARNBatch, Bool.false_eq_true, if_false, hb, ha,
          if_true, List.map_cons, List.countP_cons, List.length_cons]
        refine ⟨?_, ?_, ?_, ?_, ?_⟩
        · simp [h.1, delClassify, hb, ha]
        · simp [h.2.1, hb]
        · simp [h.2.2.1, ha]; omega
        · simp [h.2.2.2.1, ha]
        · simp [h.2.2.2.2]; omega
      · have ha' : isAlreadyDeletedErr nm msg = false := by
          simpa using ha
        have h := ih ⟨stats.totalProcessed + 1, stats.deleted,
          stats.alreadyDeleted, stats.errors + 1⟩
        simp only [deleteARNBatch, Bool.false_eq_true, if_false, hb, ha',
          List.map_cons, List.countP_cons, List.length_cons]
        refine ⟨?_, ?_, ?_, ?_, ?_⟩
        · simp [h.1, delClassify, hb, ha']
        · simp [h.2.1, hb]
        · simp [h.2.2.1, ha']
        · simp [h.2.2.2.1, ha']; omega
        · simp [h.2.2.2.2]; omega

theorem insertLoop_some (f : SavedRow → Bool) :
    ∀ (l acc t : List SavedRow), insertLoop f acc l = some t →
      t = acc ++ l := by
  intro l
  induction l with
  | nil =>
    intro acc t h
    simp only [insertLoop, Option.some.injEq] at h
    simp [h.symm]
  | cons r rs ih =>
    intro acc t h
    simp only [insertLoop] at h
    by_cases hf : f r
    · simp [hf] at h
    · simp only [hf, Bool.false_eq_true, if_false] at h
      have := ih (acc ++ [r]) t h
      simp [this]

theorem batchSave_commit (f : SavedRow → Bool)
    (table results : List SavedRow)
    (h : (batchSaveArnResults f table results).2 = false) :
    (batchSaveArnResults f table results).1 = table ++ results := by
  unfold batchSaveArnResults at h ⊢
  by_cases he : results.isEmpty
  · have : results = [] := List.isEmpty_iff.mp he
    simp [he, this]
  · simp only [he, Bool.false_eq_true, if_false] at h ⊢
    cases hl : insertLoop f table results with
    | none => rw [hl] at h; simp at h
    | some t => simpa using insertLoop_some f results table t hl

theorem batchSave_rollback (f : SavedRow → Bool)
    (table results : List SavedRow)
    (h : (batchSaveArnResults f table results).2 = true) :
    (batchSaveArnResults f table results).1 = table := by
  unfold batchSaveArnResults at h ⊢
  by_cases he : results.isEmpty
  · simp [he]
  · simp only [he, Bool.false_eq_true, if_false] at h ⊢
    cases hl : insertLoop f table results with
    | none => rfl
    | some t => rw [hl] at h; simp at h

theorem runBatches_shape (check : Int × String → ArnResult) (runId : String)
    (f : SavedRow → Bool) :
    ∀ (bs : List (List (Int × String))) (counter : Nat)
      (table : List SavedRow),
    ∃ j, j ≤ bs.length ∧
      (runBatches check runId f bs counter table).1 =
        table ++ ((enrichedBatches check runId bs counter).take j).flatten ∧
      ((runBatches check runId f bs counter table).2.1 = false →
        j = bs.length) := by
  intro bs
  induction bs with
  | nil =>
    intro counter table
    exact ⟨0, Nat.le_refl 0, by simp [runBatches, enrichedBatches],
      fun _ => rfl⟩
  | cons b rest ih =>
    intro counter table
    cases hsave : batchSaveArnResults f table
        (enrich runId (counter + 1) (b.map check)) with
    | mk t e =>
      cases e with
      | true =>
        refine ⟨0, Nat.zero_le _, ?_, ?_⟩
        · have ht : t = table := by
            have := batchSave_rollback f table
              (enrich runId (counter + 1) (b.map check)) (by rw [hsave])
            rw [hsave] at this; exact this
          simp only [runBatches, hsave, List.take_zero, List.flatten_nil,
            List.append_nil]
          exact ht
        · intro hfalse
          simp only [runBatches, hsave] at hfalse
          exact Bool.noConfusion hfalse
      | false =>
        have ht : t = table ++ enrich runId (counter + 1) (b.map check) := by
          have := batchSave_commit f table
            (enrich runId (counter + 1) (b.map check)) (by rw [hsave])
          rw [hsave] at this; exact this
        obtain ⟨j, hj, heq, himp⟩ := ih (counter + 1) t
        refine ⟨j + 1, by simpa using Nat.succ_le_succ hj, ?_, ?_⟩
        · simp only [runBatches, hsave, enrichedBatches, List.take_succ_cons,
            List.flatten_cons]
          rw [heq, ht, List.append_assoc]
        · intro hfalse
          simp only [runBatches, hsave] at hfalse
          rw [himp hfalse, List.length_cons]

/-- Claim C7: batch persistence is atomic.  `batchSaveArnResults` either
commits all of a batch's enriched rows (appending exactly the batch to the
stored table) or rolls back leaving the stored table unchanged and
signalling the error; and the `checkMultipleArns` drive persists whole
batches only — every record of a batch is checked before its rows are saved,
the stored table always consists of a prefix of whole enriched batches, and
an error-free run persists every batch. -/
theorem batch_persistence_atomic :
    (∀ (f : SavedRow → Bool) (table results : List SavedRow),
      (batchSaveArnResults f table results).2 = true →
      (batchSaveArnResults f table results).1 = table) ∧
    (∀ (f : SavedRow → Bool) (table results : List SavedRow),
      (batchSaveArnResults f table results).2 = false →
      (batchSaveArnResults f table results).1 = table ++ results) ∧
    (∀ (check : Int × String → ArnResult) (runId : String)
      (f : SavedRow → Bool) (records : List (Int × String))
      (batchSize : Nat) (table : List SavedRow),
      ∃ j, j ≤ (chunkArray records batchSize).length ∧
        (checkMultipleArns check runId f records batchSize table).1 =
          table ++ ((enrichedBatches check runId
            (chunkArray records batchSize) 0).take j).flatten ∧
        ((checkMultipleArns check runId f records batchSize table).2.1 =
            false →
          j = (chunkArray records batchSize).length)) :=
  ⟨batchSave_rollback, batchSave_commit,
    fun check runId f records batchSize table =>
      runBatches_shape check runId f (chunkArray records batchSize) 0 table⟩

/-- Witness for C7: with no insert failing, saving a one-row batch appends
exactly that row. -/
theorem batch_persistence_atomic_witness :
    (batchSaveArnResults (fun _ => false) []
      [⟨mkErrorResult 1 "a" "N" "M" 0, "run-1", 1⟩]).1 =
      [] ++ [⟨mkErrorResult 1 "a" "N" "M" 0, "run-1", 1⟩] :=
  batch_persistence_atomic.2.1 (fun _ => false) []
    [⟨mkErrorResult 1 "a" "N" "M" 0, "run-1", 1⟩] (by decide)

/-- Claim C8 counterexample: a resume cursor of 0 is non-null but falsy in
JavaScript, so `if (resumeFromId)` skips the `id > resumeFromId` condition
entirely: a source row with ordinal 0 is returned even though 0 is not
strictly greater than the cursor 0. -/
theorem getPushArns_zero_cursor_not_filtered :
    getPushArns [⟨0, some "a"⟩] none (some 0) = [((0 : Int), "a")] ∧
    ¬((0 : Int) > 0) := by
  refine ⟨?_, by omega⟩
  have hfil : ([⟨0, some "a"⟩] : List SourceRow).filter
      (pushArnRowOk (some 0)) = [⟨0, some "a"⟩] := by decide
  simp [getPushArns, hfil, jsTruthyInt]

/-- Claim C8 (amended): for every truthy (non-null and non-zero) resume
cursor, `getPushArns` returns only rows with ordinal strictly greater than
the cursor; the rows come back ordered ascending by ordinal; and a truthy
limit bounds the number of returned rows. -/
theorem getPushArns_resume_amended (rows : List SourceRow)
    (limit rfid : Option Int) (r n : Int) :
    (r ≠ 0 → ∀ p ∈ getPushArns rows limit (some r), r < p.1) ∧
    (getPushArns rows limit rfid).Pairwise (fun p q => p.1 ≤ q.1) ∧
    (n ≠ 0 → (getPushArns rows (some n) rfid).length ≤ n.toNat) := by
  refine ⟨?_, ?_, ?_⟩
  · intro hr p hp
    simp only [getPushArns, List.mem_map] at hp
    obtain ⟨row, hrow, hpe⟩ := hp
    have hrow2 : row ∈ (rows.filter (pushArnRowOk (some r))).mergeSort
        (fun a b => a.id ≤ b.id) := by
      by_cases hl : jsTruthyInt limit = true
      · rw [if_pos hl] at hrow
        exact List.mem_of_mem_take hrow
      · rw [if_neg hl] at hrow
        exact hrow
    have hrow3 := List.mem_mergeSort.mp hrow2
    have hok := (List.mem_filter.mp hrow3).2
    unfold pushArnRowOk at hok
    rw [Bool.and_eq_true] at hok
    have hjs : jsTruthyInt (some r) = true := by
      simp [jsTruthyInt, bne_iff_ne, hr]
    have h2 := hok.2
    simp only [hjs, if_true, Option.getD_some, decide_eq_true_eq] at h2
    rw [← hpe]
    exact h2
  · simp only [getPushArns]
    rw [List.pairwise_map]
    have htrans : ∀ a b c : SourceRow,
        (fun a b : SourceRow => (a.id ≤ b.id : Bool)) a b →
        (fun a b : SourceRow => (a.id ≤ b.id : Bool)) b c →
        (fun a b : SourceRow => (a.id ≤ b.id : Bool)) a c := by
      intro a b c hab hbc
      simp only [decide_eq_true_eq] at hab hbc ⊢
      omega
    have htotal : ∀ a b : SourceRow,
        ((fun a b : SourceRow => (a.id ≤ b.id : Bool)) a b ||
          (fun a b : SourceRow => (a.id ≤ b.id : Bool)) b a) = true := by
      intro a b
      simpa using Int.le_total a.id b.id
    have hsorted0 := List.sorted_mergeSort htrans htotal
      (rows.filter (pushArnRowOk rfid))
    have hsorted : ((rows.filter (pushArnRowOk rfid)).mergeSort
        (fun a b => a.id ≤ b.id)).Pairwise
        (fun a b : SourceRow => a.id ≤ b.id) :=
      hsorted0.imp (fun h => by simpa using h)
    by_cases hl : jsTruthyInt limit = true
    · rw [if_pos hl]
      exact List.Pairwise.sublist (List.take_sublist _ _) hsorted
    · rw [if_neg hl]
      exact hsorted
  · intro hn
    have hjs : jsTruthyInt (some n) = true := by
      simp [jsTruthyInt, bne_iff_ne, hn]
    simp only [getPushArns, List.length_map, hjs, if_true,
      Option.getD_some, List.length_take]
    exact Nat.min_le_left _ _

/-- Witness for the amended C8 theorem: a truthy limit of 2 over three rows
returns at most 2 rows. -/
theorem getPushArns_resume_witness :
    (getPushArns [⟨1, some "a"⟩, ⟨5, some "b"⟩, ⟨3, some "c"⟩] (some 2)
      none).length ≤ (2 : Int).toNat :=
  (getPushArns_resume_amended [⟨1, some "a"⟩, ⟨5, some "b"⟩, ⟨3, some "c"⟩]
    (some 2) none 1 2).2.2 (by decide)
